import Mathlib

/-!
Verification of the natural-language specification of the RSA key core of
`azure-keyvault-keys` (`azure/keyvault/keys/crypto/_internal/rsa_key.py`)
against a shallow Lean embedding of the source.

Bytes are modelled as `List Nat` with entries below 256 (Python `bytes`).
Python exceptions are modelled by `Except PyErr`.
-/

/-- Python exceptions raised (or reachable) in `rsa_key.py`. The spec's error
taxonomy maps onto these: `InvalidKeyType` and `InvalidKeyMaterial` are the two
`ValueError`s of `from_jwk`, `UnsupportedOperation` is the `NotImplementedError`
of `decrypt`/`sign`/`unwrap_key`, and `UnsupportedAlgorithm` is the dispatch
failure of the algorithm-selection helper. -/
inductive PyErr where
  | valueError : String → PyErr
  | attributeError : String → PyErr
  | notImplementedError : String → PyErr
deriving Repr, DecidableEq

/-- Big-endian value of a byte string: the value of `int(codecs.encode(b, "hex"), 16)`
on a non-empty `b`. -/
def bytesVal (b : List Nat) : Nat :=
  b.foldl (fun a x => a * 256 + x) 0

/-- Embedding of `_bytes_to_int`: `int(codecs.encode(b, "hex"), 16)`.
`int(b"", 16)` raises `ValueError`, hence `none` on the empty byte string. -/
def _bytes_to_int (b : List Nat) : Option Nat :=
  if b.isEmpty then none else some (bytesVal b)

/-- Embedding of `_int_to_bytes`: `hex(i)` stripped of `0x`, zero-padded to even
length, hex-decoded. Pairing the minimal hex digits of `i` two at a time (with a
leading 0 pad) is exactly the minimal base-256 expansion, with `[0]` for zero
(`hex(0) = "0x0"` pads to `"00"`). -/
def _int_to_bytes (i : Nat) : List Nat :=
  if _h : i < 256 then [i]
  else _int_to_bytes (i / 256) ++ [i % 256]
  termination_by i
  decreasing_by
    exact Nat.div_lt_self (by omega) (by omega)

/-- The RSA public numbers held by the out-of-scope primitive library
(`cryptography`'s `RSAPublicNumbers`): only a modulus and a public exponent. -/
structure RSAPublicNumbers where
  n : Nat
  e : Nat
deriving Repr, DecidableEq

/-- The RSA private numbers held by the out-of-scope primitive library
(`cryptography`'s `RSAPrivateNumbers`). -/
structure RSAPrivateNumbers where
  p : Nat
  q : Nat
  d : Nat
  dmp1 : Nat
  dmq1 : Nat
  iqmp : Nat
  public_numbers : RSAPublicNumbers
deriving Repr, DecidableEq

/-- The `_rsa_impl` slot: either a private key (with its numbers) or a
public-only key. -/
inductive RsaImpl where
  | priv : RSAPrivateNumbers → RsaImpl
  | pub : RSAPublicNumbers → RsaImpl
deriving Repr, DecidableEq

/-- The JWK data carrier (`JsonWebKey`): all fields optional; byte-sequence
fields are byte strings. -/
structure JsonWebKey where
  kid : Option String
  kty : Option String
  key_ops : Option (List String)
  n : Option (List Nat)
  e : Option (List Nat)
  p : Option (List Nat)
  q : Option (List Nat)
  d : Option (List Nat)
  dp : Option (List Nat)
  dq : Option (List Nat)
  qi : Option (List Nat)
deriving Repr, DecidableEq

/-- Python truthiness of an optional byte-string attribute: `None` and `b""`
are falsy, every non-empty byte string is truthy. -/
def truthy (o : Option (List Nat)) : Bool :=
  match o with
  | none => false
  | some b => !b.isEmpty

/-- The byte string carried by an optional field (`[]` when absent; only read
behind a truthiness check, mirroring the source). -/
def optBytes (o : Option (List Nat)) : List Nat :=
  o.getD []

/-- Modelled from the spec: the `algorithms` module (`Rsa1_5.name()` etc.) is
not under src/; §6 gives the algorithm name catalog as plain strings. -/
def Rsa1_5.name : String := "RSA1_5"

/-- Modelled from the spec: algorithm name catalog (§6). -/
def RsaOaep.name : String := "RSA-OAEP"

/-- Modelled from the spec: algorithm name catalog (§6). -/
def RsaOaep256.name : String := "RSA-OAEP-256"

/-- Modelled from the spec: algorithm name catalog (§6). -/
def Rs256.name : String := "RS256"

/-- Modelled from the spec: algorithm name catalog (§6). -/
def Rs384.name : String := "RS384"

/-- Modelled from the spec: algorithm name catalog (§6). -/
def Rs512.name : String := "RS512"

/-- Modelled from the spec: algorithm name catalog (§6). -/
def Ps256.name : String := "PS256"

/-- Modelled from the spec: algorithm name catalog (§6). -/
def Ps384.name : String := "PS384"

/-- Modelled from the spec: algorithm name catalog (§6). -/
def Ps512.name : String := "PS512"

/-- Modelled from the spec: `dmp1 = d mod (p − 1)` — the CRT helper of the
out-of-scope primitive library (`rsa_crt_dmp1`), specified in §4.2/§1. -/
def rsa_crt_dmp1 (private_exponent p : Nat) : Nat :=
  private_exponent % (p - 1)

/-- Modelled from the spec: `dmq1 = d mod (q − 1)` (`rsa_crt_dmq1`, §4.2). -/
def rsa_crt_dmq1 (private_exponent q : Nat) : Nat :=
  private_exponent % (q - 1)

/-- Modelled from the spec: `iqmp = q⁻¹ mod p` (modular inverse)
(`rsa_crt_iqmp`, §4.2). -/
def rsa_crt_iqmp (p q : Nat) : Nat :=
  ((q : ZMod p)⁻¹).val

/-- The RSA key object (`RsaKey`). The claims concern keys produced by
`from_jwk`, whose `_rsa_impl` is always populated, so the slot is modelled
as non-optional. -/
structure RsaKey where
  kid : Option String
  kty : Option String
  key_ops : Option (List String)
  rsa_impl : RsaImpl
deriving Repr, DecidableEq

/-- `RsaKey.PUBLIC_KEY_DEFAULT_OPS`. -/
def RsaKey.PUBLIC_KEY_DEFAULT_OPS : List String := ["encrypt", "wrapKey", "verify"]

/-- `RsaKey.PRIVATE_KEY_DEFAULT_OPS`. -/
def RsaKey.PRIVATE_KEY_DEFAULT_OPS : List String :=
  ["encrypt", "decrypt", "wrapKey", "unwrapKey", "verify", "sign"]

/-- `RsaKey._supported_encryption_algorithms`. -/
def RsaKey.supported_encryption_algorithms : List String :=
  [Rsa1_5.name, RsaOaep.name, RsaOaep256.name]

/-- `RsaKey._supported_key_wrap_algorithms`. -/
def RsaKey.supported_key_wrap_algorithms : List String :=
  [Rsa1_5.name, RsaOaep.name, RsaOaep256.name]

/-- `RsaKey._supported_signature_algorithms`. -/
def RsaKey.supported_signature_algorithms : List String :=
  [Ps256.name, Ps384.name, Ps512.name, Rs256.name, Rs384.name, Rs512.name]

/-- `RsaKey.is_private_key`: `isinstance(self._rsa_impl, RSAPrivateKey)`. -/
def RsaKey.is_private_key (k : RsaKey) : Bool :=
  match k.rsa_impl with
  | .priv _ => true
  | .pub _ => false

/-- `RsaKey._public_key_material()`: `self.public_key.public_numbers()`, where
`public_key` is `self._rsa_impl.public_key()` on a private key and
`self._rsa_impl` otherwise. -/
def RsaKey.public_key_material (k : RsaKey) : RSAPublicNumbers :=
  match k.rsa_impl with
  | .priv nums => nums.public_numbers
  | .pub nums => nums

/-- `RsaKey._private_key_material()`: `self.private_key.private_numbers()` when
private, `None` otherwise. -/
def RsaKey.private_key_material (k : RsaKey) : Option RSAPrivateNumbers :=
  match k.rsa_impl with
  | .priv nums => some nums
  | .pub _ => none

/-- Property `n`: `_int_to_bytes(self._public_key_material().n)`. -/
def RsaKey.n (k : RsaKey) : List Nat :=
  _int_to_bytes k.public_key_material.n

/-- Property `e`: `_int_to_bytes(self._public_key_material().e)`. -/
def RsaKey.e (k : RsaKey) : List Nat :=
  _int_to_bytes k.public_key_material.e

/-- Property `p`:
`_int_to_bytes(self._public_key_material().p) if self.is_private_key() else None`.
On a private key the source reads attribute `p` of `_public_key_material()` —
an `RSAPublicNumbers`, which has only `n` and `e` — so the access raises
`AttributeError`; on a public-only key the conditional short-circuits to `None`. -/
def RsaKey.p (k : RsaKey) : Except PyErr (Option (List Nat)) :=
  match k.rsa_impl with
  | .priv _ => .error (.attributeError "RSAPublicNumbers object has no attribute p")
  | .pub _ => .ok none

/-- Property `q`: `_int_to_bytes(self._private_key_material().q) if self.is_private_key() else None`. -/
def RsaKey.q (k : RsaKey) : Except PyErr (Option (List Nat)) :=
  match k.rsa_impl with
  | .priv nums => .ok (some (_int_to_bytes nums.q))
  | .pub _ => .ok none

/-- Property `b`: reads attribute `b` of `_private_key_material()` — an
`RSAPrivateNumbers`, which has no `b` — so it raises `AttributeError` on a
private key and yields `None` on a public-only key. -/
def RsaKey.b (k : RsaKey) : Except PyErr (Option (List Nat)) :=
  match k.rsa_impl with
  | .priv _ => .error (.attributeError "RSAPrivateNumbers object has no attribute b")
  | .pub _ => .ok none

/-- Property `d`. -/
def RsaKey.d (k : RsaKey) : Except PyErr (Option (List Nat)) :=
  match k.rsa_impl with
  | .priv nums => .ok (some (_int_to_bytes nums.d))
  | .pub _ => .ok none

/-- Property `dq`: `_int_to_bytes(self._private_key_material().dmq1) ...`. -/
def RsaKey.dq (k : RsaKey) : Except PyErr (Option (List Nat)) :=
  match k.rsa_impl with
  | .priv nums => .ok (some (_int_to_bytes nums.dmq1))
  | .pub _ => .ok none

/-- Property `dp`: `_int_to_bytes(self._private_key_material().dmp1) ...`. -/
def RsaKey.dp (k : RsaKey) : Except PyErr (Option (List Nat)) :=
  match k.rsa_impl with
  | .priv nums => .ok (some (_int_to_bytes nums.dmp1))
  | .pub _ => .ok none

/-- Property `qi`: `_int_to_bytes(self._private_key_material().iqmp) ...`. -/
def RsaKey.qi (k : RsaKey) : Except PyErr (Option (List Nat)) :=
  match k.rsa_impl with
  | .priv nums => .ok (some (_int_to_bytes nums.iqmp))
  | .pub _ => .ok none

/-- Property `default_encryption_algorithm`: `RsaOaep.name()`. -/
def RsaKey.default_encryption_algorithm : String := RsaOaep.name

/-- Property `default_key_wrap_algorithm`: `RsaOaep.name()`. -/
def RsaKey.default_key_wrap_algorithm : String := RsaOaep.name

/-- Property `default_signature_algorithm`: `Rs256.name()`. -/
def RsaKey.default_signature_algorithm : String := Rs256.name

/-- Modelled from the spec: the base-class dispatch helper `Key._get_algorithm`
(`key.py`) is not under src/. §4.5 `selectAlgorithm`: an explicit name must be
a member of the operation's supported-algorithm catalog, else the call fails
with `UnsupportedAlgorithm`; when the caller supplies none, the operation's
default algorithm (a property of `RsaKey`, which is in src/) is used. -/
def RsaKey.get_algorithm (op : String) (explicitName : Option String) :
    Except PyErr String :=
  let catalog :=
    if op = "encrypt" ∨ op = "decrypt" then RsaKey.supported_encryption_algorithms
    else if op = "wrapKey" ∨ op = "unwrapKey" then RsaKey.supported_key_wrap_algorithms
    else RsaKey.supported_signature_algorithms
  let dflt :=
    if op = "encrypt" ∨ op = "decrypt" then RsaKey.default_encryption_algorithm
    else if op = "wrapKey" ∨ op = "unwrapKey" then RsaKey.default_key_wrap_algorithm
    else RsaKey.default_signature_algorithm
  match explicitName with
  | none => .ok dflt
  | some name => if name ∈ catalog then .ok name else .error (.valueError "UnsupportedAlgorithm")

/-- The `_rsa_impl` built by `RsaKey.from_jwk` (lines 114–137): a private key
when `jwk.p and jwk.q and jwk.d` (Python truthiness), a public-only key
otherwise. `_bytes_to_int` is applied only to fields that passed a truthiness
check, hence to non-empty byte strings, where it equals `bytesVal`. The
construction `priv.private_key(default_backend())` of the out-of-scope
primitive library may additionally reject numerically inconsistent components;
that validation lives outside the repository and is not modelled. -/
def fromJwkImpl (jwk : JsonWebKey) : RsaImpl :=
  let pub : RSAPublicNumbers := ⟨bytesVal (optBytes jwk.n), bytesVal (optBytes jwk.e)⟩
  if truthy jwk.p && truthy jwk.q && truthy jwk.d then
    let p := bytesVal (optBytes jwk.p)
    let q := bytesVal (optBytes jwk.q)
    let d := bytesVal (optBytes jwk.d)
    let dmp1 := if truthy jwk.dp then bytesVal (optBytes jwk.dp) else rsa_crt_dmp1 d p
    let dmq1 := if truthy jwk.dq then bytesVal (optBytes jwk.dq) else rsa_crt_dmq1 d q
    let iqmp := if truthy jwk.qi then bytesVal (optBytes jwk.qi) else rsa_crt_iqmp p q
    .priv ⟨p, q, d, dmp1, dmq1, iqmp, pub⟩
  else
    .pub pub

/-- `RsaKey.from_jwk` (validation and field carry-over; the `_rsa_impl`
construction above is the body of lines 114–137). -/
def RsaKey.from_jwk (jwk : JsonWebKey) : Except PyErr RsaKey :=
  if ¬ (jwk.kty = some "RSA" ∨ jwk.kty = some "RSA-HSM") then
    .error (.valueError "The specified jwk must have a key type of \"RSA\" or \"RSA-HSM\"")
  else if ¬ truthy jwk.n ∨ ¬ truthy jwk.e then
    .error (.valueError "Invalid RSA jwk, both n and e must be have values")
  else
    .ok { kid := jwk.kid, kty := jwk.kty, key_ops := jwk.key_ops, rsa_impl := fromJwkImpl jwk }

/-- `RsaKey.to_jwk`. The `JsonWebKey` is first built with `kid, kty, key_ops,
n, e`; when `include_private` is set the private properties are then copied in
the source's order (`q, p, d, dq, dp, qi`), each of which may raise. -/
def RsaKey.to_jwk (k : RsaKey) (include_private : Bool) : Except PyErr JsonWebKey := do
  let jwk : JsonWebKey :=
    { kid := k.kid
      kty := k.kty
      key_ops := if include_private then k.key_ops else some RsaKey.PUBLIC_KEY_DEFAULT_OPS
      n := some k.n
      e := some k.e
      p := none, q := none, d := none, dp := none, dq := none, qi := none }
  if include_private then
    let qv ← k.q
    let pv ← k.p
    let dv ← k.d
    let dqv ← k.dq
    let dpv ← k.dp
    let qiv ← k.qi
    return { jwk with q := qv, p := pv, d := dv, dq := dqv, dp := dpv, qi := qiv }
  else
    return jwk

/-- `RsaKey.encrypt`: no private-key guard; dispatches an algorithm and applies
the out-of-scope encryptor, abstracted as the parameter `prim` (algorithm name,
key material, plaintext). -/
def RsaKey.encrypt (prim : String → RsaImpl → List Nat → List Nat) (k : RsaKey)
    (algorithm : Option String) (plain_text : List Nat) : Except PyErr (List Nat) := do
  let alg ← RsaKey.get_algorithm "encrypt" algorithm
  return prim alg k.rsa_impl plain_text

/-- `RsaKey.decrypt`: raises `NotImplementedError` unless the key is private;
then dispatches and applies the out-of-scope decryptor `prim`. -/
def RsaKey.decrypt (prim : String → RSAPrivateNumbers → List Nat → List Nat) (k : RsaKey)
    (algorithm : Option String) (cipher_text : List Nat) : Except PyErr (List Nat) :=
  match k.rsa_impl with
  | .pub _ => .error (.notImplementedError "The current RsaKey does not support decrypt")
  | .priv nums => do
      let alg ← RsaKey.get_algorithm "decrypt" algorithm
      return prim alg nums cipher_text

/-- `RsaKey.sign`: raises `NotImplementedError` unless the key is private. -/
def RsaKey.sign (prim : String → RSAPrivateNumbers → List Nat → List Nat) (k : RsaKey)
    (algorithm : Option String) (digest : List Nat) : Except PyErr (List Nat) :=
  match k.rsa_impl with
  | .pub _ => .error (.notImplementedError "The current RsaKey does not support sign")
  | .priv nums => do
      let alg ← RsaKey.get_algorithm "sign" algorithm
      return prim alg nums digest

/-- Outcome of the out-of-scope signature transform's `verify(digest, signature)`:
it returns `None` on success, raises `InvalidSignature` on a cryptographic
mismatch, and raises some other error on malformed input. -/
inductive VerifyOutcome where
  | success : VerifyOutcome
  | invalidSignature : VerifyOutcome
  | otherError : PyErr → VerifyOutcome
deriving Repr, DecidableEq

/-- `RsaKey.verify`: dispatches an algorithm, calls the transform's `verify`
inside `try`, returns `True` on success, returns `False` on `InvalidSignature`,
and lets every other exception propagate. The transform is the out-of-scope
collaborator `check`. -/
def RsaKey.verify (check : String → RsaImpl → List Nat → List Nat → VerifyOutcome)
    (k : RsaKey) (algorithm : Option String) (digest signature : List Nat) :
    Except PyErr Bool := do
  let alg ← RsaKey.get_algorithm "verify" algorithm
  match check alg k.rsa_impl digest signature with
  | .success => return true
  | .invalidSignature => return false
  | .otherError err => .error err

/-- `RsaKey.wrap_key`: no private-key guard (same shape as `encrypt`). -/
def RsaKey.wrap_key (prim : String → RsaImpl → List Nat → List Nat) (k : RsaKey)
    (algorithm : Option String) (key : List Nat) : Except PyErr (List Nat) := do
  let alg ← RsaKey.get_algorithm "wrapKey" algorithm
  return prim alg k.rsa_impl key

/-- `RsaKey.unwrap_key`: raises `NotImplementedError` unless the key is private. -/
def RsaKey.unwrap_key (prim : String → RSAPrivateNumbers → List Nat → List Nat) (k : RsaKey)
    (algorithm : Option String) (encrypted_key : List Nat) : Except PyErr (List Nat) :=
  match k.rsa_impl with
  | .pub _ => .error (.notImplementedError "The current RsaKey does not support unwrap")
  | .priv nums => do
      let alg ← RsaKey.get_algorithm "unwrapKey" algorithm
      return prim alg nums encrypted_key

/-! ### Codec lemmas -/

theorem bytesVal_nil : bytesVal [] = 0 := rfl

theorem bytesVal_foldl (a : Nat) (l : List Nat) :
    l.foldl (fun acc x => acc * 256 + x) a = a * 256 ^ l.length + bytesVal l := by
  induction l generalizing a with
  | nil => simp [bytesVal]
  | cons x t ih =>
    simp only [List.foldl_cons, List.length_cons, bytesVal]
    rw [ih (a * 256 + x), ih (0 * 256 + x)]
    ring

theorem bytesVal_cons (x : Nat) (t : List Nat) :
    bytesVal (x :: t) = x * 256 ^ t.length + bytesVal t := by
  simpa [bytesVal] using bytesVal_foldl x t

theorem bytesVal_append_single (l : List Nat) (r : Nat) :
    bytesVal (l ++ [r]) = bytesVal l * 256 + r := by
  simp [bytesVal, List.foldl_append]

theorem bytesVal_pos (h : Nat) (t : List Nat) (hh : h ≠ 0) : 0 < bytesVal (h :: t) := by
  rw [bytesVal_cons]
  have h1 : 1 ≤ h := Nat.one_le_iff_ne_zero.mpr hh
  have h2 : 1 ≤ 256 ^ t.length := Nat.one_le_pow _ _ (by omega)
  have := Nat.mul_le_mul h1 h2
  omega

theorem int_to_bytes_ne_nil (i : Nat) : _int_to_bytes i ≠ [] := by
  unfold _int_to_bytes
  split <;> simp

theorem bytesVal_int_to_bytes (i : Nat) : bytesVal (_int_to_bytes i) = i := by
  induction i using Nat.strong_induction_on with
  | _ i ih =>
    unfold _int_to_bytes
    split
    · simp [bytesVal]
    · rename_i hge
      rw [bytesVal_append_single, ih (i / 256) (Nat.div_lt_self (by omega) (by omega))]
      omega

theorem int_to_bytes_mem_lt (i : Nat) : ∀ x ∈ _int_to_bytes i, x < 256 := by
  induction i using Nat.strong_induction_on with
  | _ i ih =>
    unfold _int_to_bytes
    split
    · rename_i hlt
      intro x hx
      simp at hx
      omega
    · rename_i hge
      intro x hx
      rw [List.mem_append] at hx
      rcases hx with hx | hx
      · exact ih (i / 256) (Nat.div_lt_self (by omega) (by omega)) x hx
      · simp at hx
        omega

theorem int_to_bytes_head_ne_zero (i : Nat) (hi : 0 < i) :
    ∀ x, (_int_to_bytes i).head? = some x → x ≠ 0 := by
  induction i using Nat.strong_induction_on with
  | _ i ih =>
    unfold _int_to_bytes
    split
    · intro x hx
      simp at hx
      omega
    · rename_i hge
      intro x hx
      rw [List.head?_append] at hx
      have hne := int_to_bytes_ne_nil (i / 256)
      have hhd : (_int_to_bytes (i / 256)).head? = some x := by
        cases hh : (_int_to_bytes (i / 256)).head? with
        | none => exact absurd (List.head?_eq_none_iff.mp hh) hne
        | some y =>
          rw [hh] at hx
          simpa [Option.or] using hx
      exact ih (i / 256) (Nat.div_lt_self (by omega) (by omega))
        (Nat.div_pos (by omega) (by omega)) x hhd

theorem int_to_bytes_of_canonical (b : List Nat) (hb : ∀ x ∈ b, x < 256) (hne : b ≠ [])
    (hh : ∀ x, b.head? = some x → x ≠ 0) : _int_to_bytes (bytesVal b) = b := by
  induction b using List.reverseRecOn with
  | nil => exact absurd rfl hne
  | append_singleton xs r ih =>
    rw [bytesVal_append_single]
    have hr : r < 256 := hb r (by simp)
    cases hxs : xs with
    | nil =>
      subst hxs
      unfold _int_to_bytes
      simp [bytesVal]
      omega
    | cons y t =>
      have hxs_ne : xs ≠ [] := by simp [hxs]
      have hhead : ∀ x, xs.head? = some x → x ≠ 0 := by
        intro x hx
        apply hh
        rw [List.head?_append, hx]
        rfl
      have hy : y ≠ 0 := by
        apply hhead y
        simp [hxs]
      have hpos : 0 < bytesVal xs := by
        rw [hxs]; exact bytesVal_pos y t hy
      have hball : ∀ x ∈ xs, x < 256 := fun x hx => hb x (by simp [hx])
      rw [← hxs] at *
      unfold _int_to_bytes
      split
      · rename_i hlt
        have h1 : 1 ≤ bytesVal xs := hpos
        have := Nat.mul_le_mul h1 (le_refl 256)
        omega
      · rename_i hge
        have hdiv : (bytesVal xs * 256 + r) / 256 = bytesVal xs := by omega
        have hmod : (bytesVal xs * 256 + r) % 256 = r := by omega
        rw [hdiv, hmod, ih hball hxs_ne hhead]

theorem bytesVal_all_zero (b : List Nat) (h : ∀ x ∈ b, x = 0) : bytesVal b = 0 := by
  induction b with
  | nil => rfl
  | cons x t ih =>
    rw [bytesVal_cons, h x (by simp), ih (fun y hy => h y (by simp [hy]))]
    simp

theorem bytesVal_dropWhile_zero (b : List Nat) :
    bytesVal (b.dropWhile (fun x => x == 0)) = bytesVal b := by
  induction b with
  | nil => rfl
  | cons x t ih =>
    by_cases hx : x = 0
    · subst hx
      rw [List.dropWhile_cons_of_pos (by simp), ih, bytesVal_cons]
      omega
    · rw [List.dropWhile_cons_of_neg (by simpa using hx)]

theorem dropWhile_zero_head_ne_zero (b : List Nat) :
    ∀ x, (b.dropWhile (fun y => y == 0)).head? = some x → x ≠ 0 := by
  induction b with
  | nil => intro x hx; simp at hx
  | cons y t ih =>
    intro x hx
    by_cases hy : y = 0
    · subst hy
      rw [List.dropWhile_cons_of_pos (by simp)] at hx
      exact ih x hx
    · rw [List.dropWhile_cons_of_neg (by simpa using hy)] at hx
      simp at hx
      omega

/-! ### Modular-inverse lemma for the derived `iqmp` -/

theorem rsa_crt_iqmp_spec (p q : Nat) (hp : 1 < p) (hco : Nat.Coprime q p) :
    rsa_crt_iqmp p q < p ∧ (rsa_crt_iqmp p q * q) % p = 1 := by
  haveI : NeZero p := ⟨by omega⟩
  haveI : Fact (1 < p) := ⟨hp⟩
  have h1 : (q : ZMod p) * (q : ZMod p)⁻¹ = 1 := ZMod.coe_mul_inv_eq_one q hco
  have h2 : ((q : ZMod p)⁻¹ * (q : ZMod p)).val = 1 := by
    rw [mul_comm] at h1
    rw [h1, ZMod.val_one]
  rw [ZMod.val_mul, ZMod.val_natCast] at h2
  refine ⟨ZMod.val_lt _, ?_⟩
  calc (rsa_crt_iqmp p q * q) % p
      = rsa_crt_iqmp p q % p * (q % p) % p := by rw [Nat.mul_mod]
    _ = ((q : ZMod p)⁻¹).val * (q % p) % p := by
        rw [rsa_crt_iqmp, Nat.mod_eq_of_lt (ZMod.val_lt _)]
    _ = 1 := h2

/-! ### `from_jwk` / `to_jwk` characterization lemmas -/

theorem from_jwk_ok_inv (jwk : JsonWebKey) (k : RsaKey)
    (hok : RsaKey.from_jwk jwk = .ok k) :
    (jwk.kty = some "RSA" ∨ jwk.kty = some "RSA-HSM") ∧
      truthy jwk.n = true ∧ truthy jwk.e = true ∧
      k = { kid := jwk.kid, kty := jwk.kty, key_ops := jwk.key_ops,
            rsa_impl := fromJwkImpl jwk } := by
  unfold RsaKey.from_jwk at hok
  split at hok
  · exact absurd hok (by simp)
  · split at hok
    · exact absurd hok (by simp)
    · rename_i h1 h2
      rw [not_not] at h1
      push_neg at h2
      obtain ⟨hn, he⟩ := h2
      refine ⟨h1, by simpa using hn, by simpa using he, ?_⟩
      exact (Except.ok.inj hok).symm

theorem from_jwk_kty_invalid (jwk : JsonWebKey)
    (h : ¬ (jwk.kty = some "RSA" ∨ jwk.kty = some "RSA-HSM")) :
    RsaKey.from_jwk jwk =
      .error (.valueError "The specified jwk must have a key type of \"RSA\" or \"RSA-HSM\"") := by
  unfold RsaKey.from_jwk
  rw [if_pos h]

theorem from_jwk_ne_missing (jwk : JsonWebKey)
    (hkty : jwk.kty = some "RSA" ∨ jwk.kty = some "RSA-HSM")
    (h : ¬ truthy jwk.n ∨ ¬ truthy jwk.e) :
    RsaKey.from_jwk jwk =
      .error (.valueError "Invalid RSA jwk, both n and e must be have values") := by
  unfold RsaKey.from_jwk
  rw [if_neg (not_not.mpr hkty), if_pos h]

theorem fromJwkImpl_pub (jwk : JsonWebKey)
    (h : ¬ (truthy jwk.p && truthy jwk.q && truthy jwk.d) = true) :
    fromJwkImpl jwk =
      .pub ⟨bytesVal (optBytes jwk.n), bytesVal (optBytes jwk.e)⟩ := by
  unfold fromJwkImpl
  rw [if_neg h]

theorem fromJwkImpl_priv (jwk : JsonWebKey)
    (hp : truthy jwk.p = true) (hq : truthy jwk.q = true) (hd : truthy jwk.d = true) :
    fromJwkImpl jwk =
      .priv ⟨bytesVal (optBytes jwk.p), bytesVal (optBytes jwk.q), bytesVal (optBytes jwk.d),
        (if truthy jwk.dp then bytesVal (optBytes jwk.dp)
         else rsa_crt_dmp1 (bytesVal (optBytes jwk.d)) (bytesVal (optBytes jwk.p))),
        (if truthy jwk.dq then bytesVal (optBytes jwk.dq)
         else rsa_crt_dmq1 (bytesVal (optBytes jwk.d)) (bytesVal (optBytes jwk.q))),
        (if truthy jwk.qi then bytesVal (optBytes jwk.qi)
         else rsa_crt_iqmp (bytesVal (optBytes jwk.p)) (bytesVal (optBytes jwk.q))),
        ⟨bytesVal (optBytes jwk.n), bytesVal (optBytes jwk.e)⟩⟩ := by
  unfold fromJwkImpl
  rw [if_pos (by simp [hp, hq, hd])]

theorem to_jwk_public (k : RsaKey) :
    k.to_jwk false =
      .ok { kid := k.kid, kty := k.kty, key_ops := some RsaKey.PUBLIC_KEY_DEFAULT_OPS,
            n := some k.n, e := some k.e,
            p := none, q := none, d := none, dp := none, dq := none, qi := none } := rfl

theorem to_jwk_private_of_pub (k : RsaKey) (nums : RSAPublicNumbers)
    (h : k.rsa_impl = .pub nums) :
    k.to_jwk true =
      .ok { kid := k.kid, kty := k.kty, key_ops := k.key_ops,
            n := some k.n, e := some k.e,
            p := none, q := none, d := none, dp := none, dq := none, qi := none } := by
  obtain ⟨kid, kty, ops, impl⟩ := k
  simp only at h
  subst h
  rfl

theorem to_jwk_private_of_priv (k : RsaKey) (nums : RSAPrivateNumbers)
    (h : k.rsa_impl = .priv nums) :
    k.to_jwk true =
      .error (.attributeError "RSAPublicNumbers object has no attribute p") := by
  obtain ⟨kid, kty, ops, impl⟩ := k
  simp only at h
  subst h
  rfl

/-! ### Small-input evaluation lemma for `_int_to_bytes` -/

theorem int_to_bytes_small (i : Nat) (h : i < 256) : _int_to_bytes i = [i] := by
  unfold _int_to_bytes
  rw [dif_pos h]

/-! ### Claims -/

/-- C1, counterexample: the claim says `default_encryption_algorithm` and
`default_key_wrap_algorithm` both name RSA-OAEP-256; in the source both return
`RsaOaep.name()`, which is "RSA-OAEP", a distinct catalog entry from
"RSA-OAEP-256". -/
theorem C1_counterexample :
    RsaKey.default_encryption_algorithm ≠ "RSA-OAEP-256" ∧
    RsaKey.default_key_wrap_algorithm ≠ "RSA-OAEP-256" := by
  decide

/-- C1, amended: when the caller supplies no algorithm, encrypt, wrapKey,
decrypt and unwrapKey default to RSA-OAEP (`default_encryption_algorithm` and
`default_key_wrap_algorithm` both name "RSA-OAEP"), and sign/verify default to
RS256. -/
theorem C1_defaults :
    RsaKey.default_encryption_algorithm = "RSA-OAEP" ∧
    RsaKey.default_key_wrap_algorithm = "RSA-OAEP" ∧
    RsaKey.default_signature_algorithm = "RS256" ∧
    RsaKey.get_algorithm "encrypt" none = .ok "RSA-OAEP" ∧
    RsaKey.get_algorithm "decrypt" none = .ok "RSA-OAEP" ∧
    RsaKey.get_algorithm "wrapKey" none = .ok "RSA-OAEP" ∧
    RsaKey.get_algorithm "unwrapKey" none = .ok "RSA-OAEP" ∧
    RsaKey.get_algorithm "sign" none = .ok "RS256" ∧
    RsaKey.get_algorithm "verify" none = .ok "RS256" :=
  ⟨rfl, rfl, rfl, rfl, rfl, rfl, rfl, rfl, rfl⟩

/-- C2, counterexample: `intToBytes(bytesToInt(b))` does not equal `b` with its
leading zero bytes stripped at `b = [0x00]`: stripping yields `b""` while the
codec yields `[0x00]`. -/
theorem C2_counterexample :
    _bytes_to_int [0] = some 0 ∧
    _int_to_bytes 0 = [0] ∧
    List.dropWhile (fun x => x == 0) [0] = ([] : List Nat) ∧
    ([0] : List Nat) ≠ [] := by
  refine ⟨rfl, int_to_bytes_small 0 (by omega), rfl, by simp⟩

/-- C2, amended: `bytesToInt(intToBytes(i)) = i` for every `i ≥ 0`;
`intToBytes` is the minimal big-endian encoding (a single `0x00` for zero, no
leading zero byte otherwise); and for every non-empty byte string `b`,
`intToBytes(bytesToInt(b))` equals `b` with its leading zero bytes stripped
when `b` has a non-zero byte, and equals the single byte `0x00` when `b` is all
zeros (the all-zero case is what the counterexample forces); `bytesToInt`
fails on the empty byte string. -/
theorem C2_codec :
    (∀ i : Nat, _bytes_to_int (_int_to_bytes i) = some i) ∧
    (_int_to_bytes 0 = [0]) ∧
    (∀ i : Nat, 0 < i → ∀ x, (_int_to_bytes i).head? = some x → x ≠ 0) ∧
    (∀ b : List Nat, (∀ x ∈ b, x < 256) → b ≠ [] →
      ∃ v, _bytes_to_int b = some v ∧
        _int_to_bytes v =
          (if b.all (fun x => x == 0) then [0] else b.dropWhile (fun x => x == 0))) ∧
    (_bytes_to_int [] = none) := by
  refine ⟨?_, int_to_bytes_small 0 (by omega), int_to_bytes_head_ne_zero, ?_, rfl⟩
  · intro i
    unfold _bytes_to_int
    rw [if_neg (by simp [List.isEmpty_iff, int_to_bytes_ne_nil i]), bytesVal_int_to_bytes]
  · intro b hb hne
    refine ⟨bytesVal b, by unfold _bytes_to_int; rw [if_neg (by simp [List.isEmpty_iff, hne])], ?_⟩
    by_cases hz : b.all (fun x => x == 0) = true
    · rw [if_pos hz]
      have : bytesVal b = 0 := bytesVal_all_zero b (by simpa using hz)
      rw [this]
      exact int_to_bytes_small 0 (by omega)
    · rw [if_neg hz]
      have hdrop_ne : b.dropWhile (fun x => x == 0) ≠ [] := by
        intro hdrop
        exact hz (by simpa using List.dropWhile_eq_nil_iff.mp hdrop)
      have hsub : ∀ x ∈ b.dropWhile (fun x => x == 0), x < 256 := fun x hx =>
        hb x ((List.dropWhile_sublist _).subset hx)
      rw [← bytesVal_dropWhile_zero b]
      exact int_to_bytes_of_canonical _ hsub hdrop_ne (dropWhile_zero_head_ne_zero b)

/-- C2, witness: the amended theorem applied at `i = 5` and at `b = [0, 3]`. -/
theorem C2_codec_witness :
    _bytes_to_int (_int_to_bytes 5) = some 5 ∧
    (∃ v, _bytes_to_int [0, 3] = some v ∧
      _int_to_bytes v =
        (if ([0, 3] : List Nat).all (fun x => x == 0) then [0]
         else ([0, 3] : List Nat).dropWhile (fun x => x == 0))) :=
  ⟨C2_codec.1 5, C2_codec.2.2.2.1 [0, 3] (by decide) (by decide)⟩

/-- C3: on a public-only instance every private accessor yields an explicit
absent result (`ok none`, never an exception); on a private instance `q, d, dp,
dq, qi` yield the big-endian bytes of the corresponding private number, but `p`
raises `AttributeError` — the source reads `_public_key_material().p`, and
`RSAPublicNumbers` has no attribute `p` — contradicting the claim (code bug:
every sibling accessor reads `_private_key_material()`). -/
theorem C3_private_accessors :
    (∀ k : RsaKey, k.is_private_key = false →
      k.p = .ok none ∧ k.q = .ok none ∧ k.d = .ok none ∧
      k.dp = .ok none ∧ k.dq = .ok none ∧ k.qi = .ok none) ∧
    (∀ (k : RsaKey) (nums : RSAPrivateNumbers), k.rsa_impl = .priv nums →
      k.q = .ok (some (_int_to_bytes nums.q)) ∧
      k.d = .ok (some (_int_to_bytes nums.d)) ∧
      k.dp = .ok (some (_int_to_bytes nums.dmp1)) ∧
      k.dq = .ok (some (_int_to_bytes nums.dmq1)) ∧
      k.qi = .ok (some (_int_to_bytes nums.iqmp)) ∧
      k.p = .error (.attributeError "RSAPublicNumbers object has no attribute p")) := by
  constructor
  · rintro ⟨kid, kty, ops, impl⟩ hk
    cases impl with
    | priv nums => exact absurd hk (by simp [RsaKey.is_private_key])
    | pub nums => exact ⟨rfl, rfl, rfl, rfl, rfl, rfl⟩
  · rintro ⟨kid, kty, ops, impl⟩ nums hk
    simp only at hk
    subst hk
    exact ⟨rfl, rfl, rfl, rfl, rfl, rfl⟩

/-- C3, witness: the accessor facts at a concrete public-only key and a
concrete private key (`p = 5, q = 3, d = 7`). -/
theorem C3_witness :
    RsaKey.p ⟨some "pub", some "RSA", none, .pub ⟨15, 3⟩⟩ = .ok none ∧
    RsaKey.q ⟨some "prv", some "RSA", none, .priv ⟨5, 3, 7, 3, 1, 2, ⟨15, 3⟩⟩⟩ = .ok (some [3]) ∧
    RsaKey.p ⟨some "prv", some "RSA", none, .priv ⟨5, 3, 7, 3, 1, 2, ⟨15, 3⟩⟩⟩ =
      .error (.attributeError "RSAPublicNumbers object has no attribute p") := by
  have h1 := C3_private_accessors.1 ⟨some "pub", some "RSA", none, .pub ⟨15, 3⟩⟩ rfl
  have h2 := C3_private_accessors.2 ⟨some "prv", some "RSA", none,
    .priv ⟨5, 3, 7, 3, 1, 2, ⟨15, 3⟩⟩⟩ ⟨5, 3, 7, 3, 1, 2, ⟨15, 3⟩⟩ rfl
  have h3 : _int_to_bytes 3 = [3] := int_to_bytes_small 3 (by omega)
  exact ⟨h1.1, by simpa [h3] using h2.1, h2.2.2.2.2.2⟩

/-- C4: importing a JWK whose `p, q, d` all carry values yields a private key
whose CRT numbers use any supplied `dp/dq/qi` verbatim (no re-validation) and
derive each missing one: `dmp1 = d mod (p-1)`, `dmq1 = d mod (q-1)`, and
`iqmp` the modular inverse of `q` modulo `p` (`iqmp < p` and
`iqmp·q ≡ 1 (mod p)` whenever `q` is coprime to `p > 1`). -/
theorem C4_crt (jwk : JsonWebKey) (k : RsaKey)
    (hok : RsaKey.from_jwk jwk = .ok k)
    (hp : truthy jwk.p = true) (hq : truthy jwk.q = true) (hd : truthy jwk.d = true) :
    ∃ nums : RSAPrivateNumbers, k.rsa_impl = .priv nums ∧
      nums.p = bytesVal (optBytes jwk.p) ∧
      nums.q = bytesVal (optBytes jwk.q) ∧
      nums.d = bytesVal (optBytes jwk.d) ∧
      (truthy jwk.dp = true → nums.dmp1 = bytesVal (optBytes jwk.dp)) ∧
      (truthy jwk.dp = false → nums.dmp1 = nums.d % (nums.p - 1)) ∧
      (truthy jwk.dq = true → nums.dmq1 = bytesVal (optBytes jwk.dq)) ∧
      (truthy jwk.dq = false → nums.dmq1 = nums.d % (nums.q - 1)) ∧
      (truthy jwk.qi = true → nums.iqmp = bytesVal (optBytes jwk.qi)) ∧
      (truthy jwk.qi = false → 1 < nums.p → Nat.Coprime nums.q nums.p →
        nums.iqmp < nums.p ∧ (nums.iqmp * nums.q) % nums.p = 1) := by
  obtain ⟨-, -, -, hk⟩ := from_jwk_ok_inv jwk k hok
  subst hk
  simp only [fromJwkImpl_priv jwk hp hq hd]
  refine ⟨_, rfl, rfl, rfl, rfl, ?_, ?_, ?_, ?_, ?_, ?_⟩
  · intro h; simp [h]
  · intro h; simp [h, rsa_crt_dmp1]
  · intro h; simp [h]
  · intro h; simp [h, rsa_crt_dmq1]
  · intro h; simp [h]
  · intro h h1 hco
    simp only [h, if_false, Bool.false_eq_true]
    simp only at h1 hco
    exact rsa_crt_iqmp_spec _ _ h1 hco

/-- C4, witness: importing `p = 5, q = 3, d = 7` with `dp = 3, dq = 1, qi = 2`
supplied. -/
theorem C4_witness :
    ∃ k : RsaKey,
      RsaKey.from_jwk ⟨some "kid", some "RSA", none, some [15], some [3],
        some [5], some [3], some [7], some [3], some [1], some [2]⟩ = .ok k ∧
      ∃ nums : RSAPrivateNumbers, k.rsa_impl = .priv nums ∧
        nums.p = 5 ∧ nums.q = 3 ∧ nums.d = 7 ∧
        nums.dmp1 = 3 ∧ nums.dmq1 = 1 ∧ nums.iqmp = 2 := by
  have h := C4_crt
    ⟨some "kid", some "RSA", none, some [15], some [3],
      some [5], some [3], some [7], some [3], some [1], some [2]⟩
    ⟨some "kid", some "RSA", none, .priv ⟨5, 3, 7, 3, 1, 2, ⟨15, 3⟩⟩⟩
    rfl rfl rfl rfl
  obtain ⟨nums, h1, hp1, hq1, hd1, hdp, -, hdq, -, hqi, -⟩ := h
  refine ⟨_, rfl, nums, h1, ?_, ?_, ?_, ?_, ?_, ?_⟩
  · rw [hp1]; decide
  · rw [hq1]; decide
  · rw [hd1]; decide
  · rw [hdp rfl]; decide
  · rw [hdq rfl]; decide
  · rw [hqi rfl]; decide

/-- C5: the claimed private JWK round-trip is broken by the `p` accessor bug —
importing a JWK with all of `p, q, d, dp, dq, qi` and re-exporting with
`includePrivate=true` raises `AttributeError` instead of producing a JWK
(the export reads property `p`, which consults `_public_key_material()`). -/
theorem C5_roundtrip_crash :
    ∃ k : RsaKey,
      RsaKey.from_jwk ⟨some "kid", some "RSA", none, some [15], some [3],
        some [5], some [3], some [7], some [3], some [1], some [2]⟩ = .ok k ∧
      k.is_private_key = true ∧
      k.to_jwk true = .error (.attributeError "RSAPublicNumbers object has no attribute p") := by
  refine ⟨⟨some "kid", some "RSA", none, .priv ⟨5, 3, 7, 3, 1, 2, ⟨15, 3⟩⟩⟩, rfl, rfl, ?_⟩
  exact to_jwk_private_of_priv _ ⟨5, 3, 7, 3, 1, 2, ⟨15, 3⟩⟩ rfl

/-- C6: `from_jwk` rejects any JWK whose `kty` is neither "RSA" nor "RSA-HSM"
with the `InvalidKeyType` `ValueError`; with an accepted `kty` it rejects any
JWK missing `n` or `e` with the `InvalidKeyMaterial` `ValueError`; and no key
is ever constructed unless `kty`, `n` and `e` are all valid (the checks run
first). -/
theorem C6_validation (jwk : JsonWebKey) :
    (¬ (jwk.kty = some "RSA" ∨ jwk.kty = some "RSA-HSM") →
      RsaKey.from_jwk jwk =
        .error (.valueError "The specified jwk must have a key type of \"RSA\" or \"RSA-HSM\"")) ∧
    ((jwk.kty = some "RSA" ∨ jwk.kty = some "RSA-HSM") → (jwk.n = none ∨ jwk.e = none) →
      RsaKey.from_jwk jwk =
        .error (.valueError "Invalid RSA jwk, both n and e must be have values")) ∧
    (∀ k : RsaKey, RsaKey.from_jwk jwk = .ok k →
      (jwk.kty = some "RSA" ∨ jwk.kty = some "RSA-HSM") ∧ jwk.n ≠ none ∧ jwk.e ≠ none) := by
  refine ⟨from_jwk_kty_invalid jwk, ?_, ?_⟩
  · intro hkty habs
    refine from_jwk_ne_missing jwk hkty ?_
    rcases habs with h | h
    · exact Or.inl (by simp [h, truthy])
    · exact Or.inr (by simp [h, truthy])
  · intro k hok
    obtain ⟨hkty, hn, he, -⟩ := from_jwk_ok_inv jwk k hok
    refine ⟨hkty, ?_, ?_⟩
    · intro h; rw [h] at hn; exact absurd hn (by simp [truthy])
    · intro h; rw [h] at he; exact absurd he (by simp [truthy])

/-- C6, witness: `kty = "EC"` fails with the key-type error; `kty = "RSA"` with
`n` absent fails with the key-material error. -/
theorem C6_witness :
    RsaKey.from_jwk ⟨none, some "EC", none, some [15], some [3],
        none, none, none, none, none, none⟩ =
      .error (.valueError "The specified jwk must have a key type of \"RSA\" or \"RSA-HSM\"") ∧
    RsaKey.from_jwk ⟨none, some "RSA", none, none, some [3],
        none, none, none, none, none, none⟩ =
      .error (.valueError "Invalid RSA jwk, both n and e must be have values") :=
  ⟨(C6_validation _).1 (by decide), (C6_validation _).2.1 (by decide) (by decide)⟩

/-- C7, counterexample: `to_jwk` with `includePrivate=true` on a public-only
instance does not fail with `UnsupportedOperation` — it succeeds, emitting the
private fields as absent. -/
theorem C7_counterexample :
    (⟨some "kid", some "RSA", some ["sign"], .pub ⟨15, 3⟩⟩ : RsaKey).is_private_key = false ∧
    ∃ j : JsonWebKey,
      (⟨some "kid", some "RSA", some ["sign"], .pub ⟨15, 3⟩⟩ : RsaKey).to_jwk true = .ok j :=
  ⟨rfl, _, to_jwk_private_of_pub _ ⟨15, 3⟩ rfl⟩

/-- C7, amended: on a public-only instance, `decrypt`, `sign` and `unwrapKey`
each fail with the `UnsupportedOperation` error (`NotImplementedError`), and
the operations are pure, leaving the key material unchanged; `to_jwk` with
`includePrivate=true`, however, succeeds on a public-only instance, emitting
`kid, kty, n, e`, the instance's `keyOps`, and every private field absent. -/
theorem C7_public_guards (prim : String → RSAPrivateNumbers → List Nat → List Nat)
    (k : RsaKey) (alg : Option String) (data : List Nat)
    (hpub : k.is_private_key = false) :
    k.decrypt prim alg data =
      .error (.notImplementedError "The current RsaKey does not support decrypt") ∧
    k.sign prim alg data =
      .error (.notImplementedError "The current RsaKey does not support sign") ∧
    k.unwrap_key prim alg data =
      .error (.notImplementedError "The current RsaKey does not support unwrap") ∧
    ∃ nums : RSAPublicNumbers, k.rsa_impl = .pub nums ∧
      k.to_jwk true = .ok { kid := k.kid, kty := k.kty, key_ops := k.key_ops,
                            n := some k.n, e := some k.e, p := none, q := none,
                            d := none, dp := none, dq := none, qi := none } := by
  obtain ⟨kid, kty, ops, impl⟩ := k
  cases impl with
  | priv nums => exact absurd hpub (by simp [RsaKey.is_private_key])
  | pub nums =>
    exact ⟨rfl, rfl, rfl, nums, rfl, to_jwk_private_of_pub _ nums rfl⟩

/-- C7, witness: the amended theorem at a concrete public-only key. -/
theorem C7_witness :
    RsaKey.decrypt (fun _ _ x => x) ⟨none, some "RSA", some ["sign"], .pub ⟨15, 3⟩⟩ none [1] =
      .error (.notImplementedError "The current RsaKey does not support decrypt") ∧
    RsaKey.sign (fun _ _ x => x) ⟨none, some "RSA", some ["sign"], .pub ⟨15, 3⟩⟩ none [1] =
      .error (.notImplementedError "The current RsaKey does not support sign") ∧
    RsaKey.unwrap_key (fun _ _ x => x) ⟨none, some "RSA", some ["sign"], .pub ⟨15, 3⟩⟩ none [1] =
      .error (.notImplementedError "The current RsaKey does not support unwrap") ∧
    ∃ nums : RSAPublicNumbers,
      (⟨none, some "RSA", some ["sign"], .pub ⟨15, 3⟩⟩ : RsaKey).rsa_impl = .pub nums ∧
      (⟨none, some "RSA", some ["sign"], .pub ⟨15, 3⟩⟩ : RsaKey).to_jwk true =
        .ok { kid := none, kty := some "RSA", key_ops := some ["sign"],
              n := some (_int_to_bytes 15), e := some (_int_to_bytes 3),
              p := none, q := none, d := none, dp := none, dq := none, qi := none } :=
  C7_public_guards (fun _ _ x => x) ⟨none, some "RSA", some ["sign"], .pub ⟨15, 3⟩⟩ none [1] rfl

/-- C8: `to_jwk(includePrivate=false)` always succeeds and emits `kid, kty, n,
e` and the fixed public operation set `{encrypt, wrapKey, verify}` regardless
of the instance's own `keyOps`; `to_jwk(includePrivate=true)` emits the
instance's actual `keyOps` on public-only instances, but on a private instance
it raises `AttributeError` (via the broken `p` accessor) instead of emitting
anything — the exported-actual-`keyOps` half of the claim fails there (code
bug). -/
theorem C8_to_jwk_key_ops :
    (∀ k : RsaKey, k.to_jwk false =
      .ok { kid := k.kid, kty := k.kty, key_ops := some RsaKey.PUBLIC_KEY_DEFAULT_OPS,
            n := some k.n, e := some k.e,
            p := none, q := none, d := none, dp := none, dq := none, qi := none }) ∧
    (∀ k : RsaKey, k.is_private_key = false →
      ∃ j : JsonWebKey, k.to_jwk true = .ok j ∧ j.key_ops = k.key_ops) ∧
    (∀ (k : RsaKey) (nums : RSAPrivateNumbers), k.rsa_impl = .priv nums →
      k.to_jwk true = .error (.attributeError "RSAPublicNumbers object has no attribute p")) := by
  refine ⟨to_jwk_public, ?_, to_jwk_private_of_priv⟩
  intro k hk
  obtain ⟨kid, kty, ops, impl⟩ := k
  cases impl with
  | priv nums => exact absurd hk (by simp [RsaKey.is_private_key])
  | pub nums => exact ⟨_, to_jwk_private_of_pub _ nums rfl, rfl⟩

/-- C8, witness: the export facts at concrete keys whose own `keyOps` is
`["decrypt"]`, different from the fixed public set. -/
theorem C8_witness :
    (⟨some "kid", some "RSA", some ["decrypt"], .priv ⟨5, 3, 7, 3, 1, 2, ⟨15, 3⟩⟩⟩ : RsaKey).to_jwk false =
      .ok { kid := some "kid", kty := some "RSA", key_ops := some ["encrypt", "wrapKey", "verify"],
            n := some (_int_to_bytes 15), e := some (_int_to_bytes 3),
            p := none, q := none, d := none, dp := none, dq := none, qi := none } ∧
    (∃ j : JsonWebKey,
      (⟨some "kid", some "RSA", some ["decrypt"], .pub ⟨15, 3⟩⟩ : RsaKey).to_jwk true = .ok j ∧
      j.key_ops = some ["decrypt"]) ∧
    (⟨some "kid", some "RSA", some ["decrypt"], .priv ⟨5, 3, 7, 3, 1, 2, ⟨15, 3⟩⟩⟩ : RsaKey).to_jwk true =
      .error (.attributeError "RSAPublicNumbers object has no attribute p") :=
  ⟨C8_to_jwk_key_ops.1 _, C8_to_jwk_key_ops.2.1 _ rfl,
    C8_to_jwk_key_ops.2.2 _ ⟨5, 3, 7, 3, 1, 2, ⟨15, 3⟩⟩ rfl⟩

/-- C9: `verify` returns `False` when the underlying signature check reports a
cryptographic mismatch (`InvalidSignature` is caught, not raised), returns
`True` when the check succeeds, and still fails with an error when the check
raises any other (malformed-input) exception. -/
theorem C9_verify (check : String → RsaImpl → List Nat → List Nat → VerifyOutcome)
    (k : RsaKey) (digest signature : List Nat) :
    (check RsaKey.default_signature_algorithm k.rsa_impl digest signature = .success →
      k.verify check none digest signature = .ok true) ∧
    (check RsaKey.default_signature_algorithm k.rsa_impl digest signature = .invalidSignature →
      k.verify check none digest signature = .ok false) ∧
    (∀ err : PyErr,
      check RsaKey.default_signature_algorithm k.rsa_impl digest signature = .otherError err →
      k.verify check none digest signature = .error err) := by
  have base : k.verify check none digest signature =
      (match check RsaKey.default_signature_algorithm k.rsa_impl digest signature with
       | .success => .ok true
       | .invalidSignature => .ok false
       | .otherError err => .error err) := rfl
  refine ⟨?_, ?_, ?_⟩
  · intro h
    rw [base, h]
  · intro h
    rw [base, h]
  · intro err h
    rw [base, h]

/-- C9, witness: the three outcomes at a concrete key, digest and signature. -/
theorem C9_witness :
    RsaKey.verify (fun _ _ _ _ => .success)
      ⟨none, some "RSA", none, .pub ⟨15, 3⟩⟩ none [1] [2] = .ok true ∧
    RsaKey.verify (fun _ _ _ _ => .invalidSignature)
      ⟨none, some "RSA", none, .pub ⟨15, 3⟩⟩ none [1] [2] = .ok false ∧
    RsaKey.verify (fun _ _ _ _ => .otherError (.valueError "malformed"))
      ⟨none, some "RSA", none, .pub ⟨15, 3⟩⟩ none [1] [2] = .error (.valueError "malformed") :=
  ⟨(C9_verify _ _ _ _).1 rfl, (C9_verify _ _ _ _).2.1 rfl, (C9_verify _ _ _ _).2.2 _ rfl⟩

/-- C10: a JWK with accepted `kty` and values for `n` and `e` in which at least
one of `p, q, d` is absent imports successfully as a public-only key built from
`n` and `e` alone — any supplied private fields (including `dp, dq, qi`) are
silently discarded and no error is reported. -/
theorem C10_public_fallback (jwk : JsonWebKey)
    (hkty : jwk.kty = some "RSA" ∨ jwk.kty = some "RSA-HSM")
    (hn : truthy jwk.n = true) (he : truthy jwk.e = true)
    (habs : jwk.p = none ∨ jwk.q = none ∨ jwk.d = none) :
    RsaKey.from_jwk jwk =
      .ok { kid := jwk.kid, kty := jwk.kty, key_ops := jwk.key_ops,
            rsa_impl := .pub ⟨bytesVal (optBytes jwk.n), bytesVal (optBytes jwk.e)⟩ } ∧
    ∀ k : RsaKey, RsaKey.from_jwk jwk = .ok k → k.is_private_key = false := by
  have himpl : fromJwkImpl jwk =
      .pub ⟨bytesVal (optBytes jwk.n), bytesVal (optBytes jwk.e)⟩ := by
    refine fromJwkImpl_pub jwk ?_
    rcases habs with h | h | h <;> simp [h, truthy]
  have hok : RsaKey.from_jwk jwk =
      .ok { kid := jwk.kid, kty := jwk.kty, key_ops := jwk.key_ops,
            rsa_impl := .pub ⟨bytesVal (optBytes jwk.n), bytesVal (optBytes jwk.e)⟩ } := by
    unfold RsaKey.from_jwk
    rw [if_neg (not_not.mpr hkty), if_neg (by simp [hn, he]), himpl]
  refine ⟨hok, ?_⟩
  intro k hk
  rw [hok] at hk
  rw [← Except.ok.inj hk]
  rfl

/-- C10, witness: `kty = "RSA"`, `n = [15]`, `e = [3]`, with `p` supplied but
`q` and `d` absent, and garbage `dp, dq, qi` supplied: the import succeeds and
yields a public-only key from `n, e` alone. -/
theorem C10_witness :
    RsaKey.from_jwk ⟨some "kid", some "RSA", some ["sign"], some [15], some [3],
        some [5], none, none, some [9], some [9], some [9]⟩ =
      .ok { kid := some "kid", kty := some "RSA", key_ops := some ["sign"],
            rsa_impl := .pub ⟨15, 3⟩ } ∧
    ∀ k : RsaKey,
      RsaKey.from_jwk ⟨some "kid", some "RSA", some ["sign"], some [15], some [3],
        some [5], none, none, some [9], some [9], some [9]⟩ = .ok k →
      k.is_private_key = false :=
  C10_public_fallback _ (by decide) rfl rfl (by decide)
